import Mathlib

/-! Hydra: the `/oauth2/auth` and `/oauth2/token` handlers.

A shallow embedding of `oauth2/handler.go`.

The handlers are orchestration code: they call the grant engine
(`fosite.OAuth2Provider`), the consent strategy (`ConsentStrategy`), the logger
and the HTTP response writer.  The embedding makes every such call an entry of a
call log (`Call`), in program order, and the collaborators' answers fields of
the `Handler` value.  A handler run is the log together with an `Outcome` that
says whether the Go function returned or stopped in a run-time panic.

Go values that may be `nil` (interface values and pointers returned next to an
`error`) are `Option`s; calling a method on `none` is the nil-dereference panic.
-/

namespace Hydra

/-! ## Go values used by the handlers -/

/-- Go `error` values.  A `sentinel` is a package-level error variable,
identified by its name; `wrapped` is what `errors.New(e)` of
`github.com/go-errors/errors` builds around an existing error. -/
inductive GoError
  | sentinel (name : String)
  | wrapped (inner : GoError)
deriving DecidableEq, Repr

/-- The package-level variable `fosite.ErrAccessDenied`. -/
def fosite.ErrAccessDenied : GoError := .sentinel "fosite.ErrAccessDenied"

/-- The constructor `errors.New` of go-errors applied to an error value. -/
def errors.New (e : GoError) : GoError := .wrapped e

/-- The constant `http.StatusFound`. -/
def http.StatusFound : Nat := 302

/-- The type `fosite.RFC6749Error`, the standardized error of the grant engine. -/
structure RFC6749Error where
  Name : String
  Description : String
  StatusCode : Nat
deriving DecidableEq, Repr

/-- Go `url.Values`, a `map[string][]string`, as an association list that is
read through `Values.index` only (the first entry of a key is the map entry). -/
structure Values where
  entries : List (String × List String)
deriving DecidableEq, Repr

/-- The map read `v[key]`: the slice stored under `key`, `nil` when absent. -/
def Values.index (v : Values) (key : String) : List String :=
  match v.entries.find? (fun e => e.1 == key) with
  | some e => e.2
  | none => []

/-- The map write `v[key] = vs`. -/
def Values.store (v : Values) (key : String) (vs : List String) : Values :=
  ⟨(key, vs) :: v.entries.filter (fun e => !(e.1 == key))⟩

/-- Go `Values.Get`: the first value of `key`, or the empty string. -/
def Values.Get (v : Values) (key : String) : String :=
  match v.index key with
  | [] => ""
  | x :: _ => x

/-- Go `Values.Set`: `v[key] = []string{value}`. -/
def Values.Set (v : Values) (key value : String) : Values :=
  v.store key [value]

/-- Go `Values.Add`: `v[key] = append(v[key], value)`. -/
def Values.Add (v : Values) (key value : String) : Values :=
  v.store key (v.index key ++ [value])

/-- Go `url.URL` (the fields that make up its string form). -/
structure URL where
  Scheme : String
  Opaque : String
  User : Option String
  Host : String
  Path : String
  RawQuery : String
  Fragment : String
deriving DecidableEq, Repr

/-- Go `tls.ConnectionState`; the handlers only test the pointer for `nil`. -/
structure ConnectionState where
  Version : Nat
  ServerName : String
deriving DecidableEq, Repr

/-- Go `http.Request`, the fields the handlers read. -/
structure Request where
  Method : String
  URL : URL
  Host : String
  TLS : Option ConnectionState
deriving DecidableEq, Repr

/-- The library functions the handlers call and whose code is outside this
repository: `fosite.ErrorToRFC6749Error`, and from `net/url` `ParseQuery`
(behind `URL.Query`), `Values.Encode` and `URL.String`. -/
structure Library where
  ErrorToRFC6749Error : GoError → RFC6749Error
  ParseQuery : String → Values
  Encode : Values → String
  URLString : URL → String

/-- Go `URL.Query`: the parsed `RawQuery` (parse errors are dropped there). -/
def URL.Query (lib : Library) (u : URL) : Values :=
  lib.ParseQuery u.RawQuery

/-- Go `strings.Join`. -/
def strings.Join : List String → String → String
  | [], _ => ""
  | [a], _ => a
  | a :: b :: rest, sep => a ++ sep ++ strings.Join (b :: rest) sep

/-- The type `fosite.Arguments`, a `[]string`. -/
abbrev Arguments := List String

/-- The method `fosite.Arguments.Exact`: `name == strings.Join(r, " ")`. -/
def Arguments.Exact (r : Arguments) (name : String) : Bool :=
  name == strings.Join r " "

/-- The interface `fosite.Client`, read through `GetID`. -/
structure Client where
  ID : String
deriving DecidableEq, Repr

/-- The struct `strategy.DefaultSession` with its three containers. -/
structure DefaultSession where
  Claims : List (String × String)
  Headers : List (String × String)
  HMACSession : List (String × String)
deriving DecidableEq, Repr

/-- The struct `Session` of package `oauth2`. -/
structure Session where
  DefaultSession : DefaultSession
  Subject : String
deriving DecidableEq, Repr

/-- The literal `Session{DefaultSession: &strategy.DefaultSession{Claims: new(..),
Headers: new(..), HMACSession: new(..)}}` at the top of `TokenHandler`. -/
def Session.fresh : Session :=
  { DefaultSession := { Claims := [], Headers := [], HMACSession := [] }, Subject := "" }

/-- A non-nil `fosite.AccessRequester`, read through `GetGrantTypes` and
`GetClient`; a parsed access request carries its authenticated client. -/
structure AccessRequester where
  GrantTypes : Arguments
  Client : Client
  Form : Values
deriving DecidableEq, Repr

/-- A non-nil `fosite.AccessResponder`. -/
structure AccessResponder where
  AccessToken : String
  TokenType : String
deriving DecidableEq, Repr

/-- A non-nil `fosite.AuthorizeRequester`, read through `GetRequestForm` and
`IsRedirectURIValid`. -/
structure AuthorizeRequester where
  ClientID : String
  RedirectURI : String
  RequestForm : Values
  RedirectURIValid : Bool
deriving DecidableEq, Repr

/-- A non-nil `fosite.AuthorizeResponder`. -/
structure AuthorizeResponder where
  Code : String
deriving DecidableEq, Repr

/-- The interface `fosite.OAuth2Provider`, the answers of the grant engine.
`NewAccessRequest` receives `&session`: its third result is the content of that
session after the call.  `NewAccessResponse` reaches the same session through
the request, so the session content at the time of the call is an argument. -/
structure OAuth2Provider where
  NewAccessRequest : Request → Session → Option AccessRequester × Option GoError × Session
  NewAccessResponse : Request → AccessRequester → Session →
    Option AccessResponder × Option GoError
  NewAuthorizeRequest : Request → Option AuthorizeRequester × Option GoError
  NewAuthorizeResponse : Request → AuthorizeRequester → Option Session →
    Option AuthorizeResponder × Option GoError

/-- The interface `ConsentStrategy`. -/
structure ConsentStrategy where
  IssueChallenge : AuthorizeRequester → String → String × Option GoError
  ValidateResponse : AuthorizeRequester → String → Option Session × Option GoError

/-- The struct `Handler`. -/
structure Handler where
  OAuth2 : OAuth2Provider
  Consent : ConsentStrategy
  ConsentURL : URL

/-! ## The call log -/

/-- One call made by a handler to a collaborator, with its arguments.  The
response writer `w` and the context `ctx` are left out of the arguments: a run
has one of each.  `NewAccessRequest` and `NewAccessResponse` also carry the
content of the handler's `session` variable at the time of the call. -/
inductive Call
  | NewAccessRequest (r : Request) (session : Session)
  | NewAccessResponse (r : Request) (accessRequest : AccessRequester) (session : Session)
  | WriteAccessError (accessRequest : Option AccessRequester) (err : GoError)
  | WriteAccessResponse (accessRequest : AccessRequester) (resp : Option AccessResponder)
  | NewAuthorizeRequest (r : Request)
  | NewAuthorizeResponse (r : Request) (ar : AuthorizeRequester) (session : Option Session)
  | WriteAuthorizeError (ar : AuthorizeRequester) (err : GoError)
  | WriteAuthorizeResponse (ar : AuthorizeRequester) (resp : Option AuthorizeResponder)
  | IssueChallenge (ar : AuthorizeRequester) (returnURL : String)
  | ValidateResponse (ar : AuthorizeRequester) (token : String)
  | LogError (err : GoError)
  | Redirect (r : Request) (url : String) (code : Nat)
  | HeaderAdd (key value : String)
  | WriteHeader (code : Nat)
deriving DecidableEq, Repr

/-- How a Go function ended. -/
inductive Outcome
  | returned
  | panicked
deriving DecidableEq, Repr

/-- A run of a handler: the calls it made, in order, and how it ended. -/
structure Run where
  calls : List Call
  outcome : Outcome
deriving DecidableEq, Repr

/-! ## The handlers -/

/-- The method `Handler.writeAuthorizeError` (the error translator). -/
def writeAuthorizeError (lib : Library) (o : Handler) (ar : Option AuthorizeRequester)
    (err : GoError) : Run :=
  match ar with
  -- `ar.IsRedirectURIValid()` on a nil interface value
  | none => ⟨[], .panicked⟩
  | some a =>
    if !a.RedirectURIValid then
      let rfcerr := lib.ErrorToRFC6749Error err
      let redirectURI := o.ConsentURL
      let query := redirectURI.Query lib
      let query := query.Add "error" rfcerr.Name
      let query := query.Add "error_description" rfcerr.Description
      let redirectURI := { redirectURI with RawQuery := lib.Encode query }
      ⟨[.HeaderAdd "Location" (lib.URLString redirectURI), .WriteHeader http.StatusFound],
        .returned⟩
    else
      ⟨[.WriteAuthorizeError a err], .returned⟩

/-- The method `Handler.redirectToConsent`: the calls it makes and the error it
returns. -/
def redirectToConsent (lib : Library) (o : Handler) (r : Request)
    (authorizeRequest : AuthorizeRequester) : List Call × Option GoError :=
  let schema := if r.TLS.isNone then "http" else "https"
  let returnURL := schema ++ "://" ++ r.Host ++ lib.URLString r.URL
  match o.Consent.IssueChallenge authorizeRequest returnURL with
  | (_, some err) => ([.IssueChallenge authorizeRequest returnURL], some err)
  | (challenge, none) =>
    let p := o.ConsentURL
    let q := p.Query lib
    let q := q.Set "challenge" challenge
    let p := { p with RawQuery := lib.Encode q }
    ([.IssueChallenge authorizeRequest returnURL,
      .Redirect r (lib.URLString p) http.StatusFound], none)

/-- The method `Handler.AuthHandler`. -/
def AuthHandler (lib : Library) (o : Handler) (r : Request) : Run :=
  match o.OAuth2.NewAuthorizeRequest r with
  | (authorizeRequest, some err) =>
    let t := writeAuthorizeError lib o authorizeRequest err
    ⟨[.NewAuthorizeRequest r, .LogError err] ++ t.calls, t.outcome⟩
  -- `err == nil`: `authorizeRequest.GetRequestForm()` is the next step
  | (none, none) => ⟨[.NewAuthorizeRequest r], .panicked⟩
  | (some authorizeRequest, none) =>
    let consentToken := authorizeRequest.RequestForm.Get "consent"
    if consentToken = "" then
      match redirectToConsent lib o r authorizeRequest with
      | (cs, some err) =>
        let t := writeAuthorizeError lib o (some authorizeRequest) err
        ⟨[.NewAuthorizeRequest r] ++ cs ++ [.LogError err] ++ t.calls, t.outcome⟩
      | (cs, none) => ⟨[.NewAuthorizeRequest r] ++ cs, .returned⟩
    else
      match o.Consent.ValidateResponse authorizeRequest consentToken with
      | (_, some err) =>
        let t := writeAuthorizeError lib o (some authorizeRequest)
          (errors.New fosite.ErrAccessDenied)
        ⟨[.NewAuthorizeRequest r, .ValidateResponse authorizeRequest consentToken,
          .LogError err] ++ t.calls, t.outcome⟩
      | (session, none) =>
        match o.OAuth2.NewAuthorizeResponse r authorizeRequest session with
        | (_, some err) =>
          let t := writeAuthorizeError lib o (some authorizeRequest) err
          ⟨[.NewAuthorizeRequest r, .ValidateResponse authorizeRequest consentToken,
            .NewAuthorizeResponse r authorizeRequest session, .LogError err] ++ t.calls,
            t.outcome⟩
        | (response, none) =>
          ⟨[.NewAuthorizeRequest r, .ValidateResponse authorizeRequest consentToken,
            .NewAuthorizeResponse r authorizeRequest session,
            .WriteAuthorizeResponse authorizeRequest response], .returned⟩

/-- The method `Handler.TokenHandler`. -/
def TokenHandler (o : Handler) (r : Request) : Run :=
  let session := Session.fresh
  match o.OAuth2.NewAccessRequest r session with
  | (accessRequest, some err, _) =>
    ⟨[.NewAccessRequest r session, .LogError err, .WriteAccessError accessRequest err],
      .returned⟩
  -- `err == nil`: `accessRequest.GetGrantTypes()` is the next step
  | (none, none, _) => ⟨[.NewAccessRequest r session], .panicked⟩
  | (some accessRequest, none, session1) =>
    -- `session.Subject = accessRequest.GetClient().GetID()` under the `if`
    let session2 :=
      if accessRequest.GrantTypes.Exact "client_credentials" then
        { session1 with Subject := accessRequest.Client.ID }
      else session1
    match o.OAuth2.NewAccessResponse r accessRequest session2 with
    | (_, some err) =>
      ⟨[.NewAccessRequest r session, .NewAccessResponse r accessRequest session2,
        .LogError err, .WriteAccessError (some accessRequest) err], .returned⟩
    | (accessResponse, none) =>
      ⟨[.NewAccessRequest r session, .NewAccessResponse r accessRequest session2,
        .WriteAccessResponse accessRequest accessResponse], .returned⟩

/-! ## Observations on a call log -/

/-- The calls that write the HTTP response: the four writers of the grant
engine, `http.Redirect`, and `w.WriteHeader` (the error translator writing its
own 302). -/
def Call.isWrite : Call → Bool
  | .WriteAccessError _ _ => true
  | .WriteAccessResponse _ _ => true
  | .WriteAuthorizeError _ _ => true
  | .WriteAuthorizeResponse _ _ => true
  | .Redirect _ _ _ => true
  | .WriteHeader _ => true
  | _ => false

/-- The calls that reach the response writer `w`: the writes and the header
additions.  This is what the client can observe of a run. -/
def Call.isResponse : Call → Bool
  | .HeaderAdd _ _ => true
  | c => c.isWrite

/-- The calls by which the grant engine issues or delivers an authorize grant. -/
def Call.isGrant : Call → Bool
  | .NewAuthorizeResponse _ _ _ => true
  | .WriteAuthorizeResponse _ _ => true
  | _ => false

/-- The calls `TokenHandler` is built from. -/
def Call.isTokenSide : Call → Bool
  | .NewAccessRequest _ _ => true
  | .NewAccessResponse _ _ _ => true
  | .WriteAccessError _ _ => true
  | .WriteAccessResponse _ _ => true
  | .LogError _ => true
  | _ => false

/-- The response writes of a log, in order. -/
def writesOf (cs : List Call) : List Call := cs.filter Call.isWrite

/-- The client-observable part of a log, in order. -/
def responseOf (cs : List Call) : List Call := cs.filter Call.isResponse

/-- The return URL `redirectToConsent` hands to `IssueChallenge`, as the
specification words it: `https` exactly when the request came over TLS. -/
def returnURLOf (lib : Library) (r : Request) : String :=
  (if r.TLS.isSome then "https" else "http") ++ "://" ++ r.Host ++ lib.URLString r.URL

/-! ## Concrete collaborators, for evaluating the handlers -/

/-- A small library: three error names, queries written `k=v&k=v`. -/
def sampleLibrary : Library where
  ErrorToRFC6749Error := fun e =>
    if e = errors.New fosite.ErrAccessDenied then
      ⟨"access_denied", "The resource owner or authorization server denied the request", 403⟩
    else if e = .sentinel "fosite.ErrInvalidRequest" then
      ⟨"invalid_request", "The request is missing a required parameter", 400⟩
    else ⟨"server_error", "The authorization server encountered an unexpected condition", 500⟩
  ParseQuery := fun s => if s = "" then ⟨[]⟩ else ⟨[(s, [""])]⟩
  Encode := fun v =>
    "&".intercalate (v.entries.reverse.flatMap fun e => e.2.map fun x => e.1 ++ "=" ++ x)
  URLString := fun u =>
    (if u.Scheme = "" then "" else u.Scheme ++ "://") ++ u.Host ++ u.Path ++
      (if u.RawQuery = "" then "" else "?" ++ u.RawQuery)

/-- The consent authority of the examples. -/
def sampleConsentURL : URL :=
  { Scheme := "https", Opaque := "", User := none, Host := "consent.example",
    Path := "/consent", RawQuery := "", Fragment := "" }

/-- A plain-HTTP authorize request for client `app1`. -/
def sampleRequest : Request :=
  { Method := "GET",
    URL := { Scheme := "", Opaque := "", User := none, Host := "", Path := "/oauth2/auth",
             RawQuery := "client_id=app1", Fragment := "" },
    Host := "hydra.example", TLS := none }

/-- A parsed authorize request without consent proof and with a registered
redirect URI. -/
def sampleAuthorize : AuthorizeRequester :=
  { ClientID := "app1", RedirectURI := "https://app1.example/cb",
    RequestForm := ⟨[("client_id", ["app1"])]⟩, RedirectURIValid := true }

/-- The same request, its redirect URI not registered. -/
def sampleAuthorizeUnregistered : AuthorizeRequester :=
  { sampleAuthorize with RedirectURI := "https://evil.example/cb", RedirectURIValid := false }

/-- The same request, coming back from the consent authority with a proof. -/
def sampleAuthorizeConsented : AuthorizeRequester :=
  { sampleAuthorize with
    RequestForm := ⟨[("consent", ["signed-proof"]), ("client_id", ["app1"])]⟩ }

/-- The session the sample consent strategy accepts. -/
def sampleSession : Session := { Session.fresh with Subject := "peter" }

/-- A parsed client-credentials access request of client `app1`. -/
def sampleAccess : AccessRequester :=
  { GrantTypes := ["client_credentials"], Client := ⟨"app1"⟩,
    Form := ⟨[("grant_type", ["client_credentials"])]⟩ }

/-- A grant engine that parses every request into `a` and `t` and issues. -/
def sampleOAuth2 (a : AuthorizeRequester) (t : AccessRequester) : OAuth2Provider where
  NewAccessRequest := fun _ s => (some t, none, s)
  NewAccessResponse := fun _ _ s =>
    if s.Subject = "" then (none, some (.sentinel "fosite.ErrServerError"))
    else (some ⟨"token-for-" ++ s.Subject, "bearer"⟩, none)
  NewAuthorizeRequest := fun _ => (some a, none)
  NewAuthorizeResponse := fun _ _ _ => (some ⟨"code-1"⟩, none)

/-- A grant engine whose parsers fail and return `nil` requests. -/
def failingOAuth2 : OAuth2Provider where
  NewAccessRequest := fun _ s => (none, some (.sentinel "fosite.ErrInvalidRequest"), s)
  NewAccessResponse := fun _ _ _ => (none, some (.sentinel "fosite.ErrServerError"))
  NewAuthorizeRequest := fun _ => (none, some (.sentinel "fosite.ErrInvalidRequest"))
  NewAuthorizeResponse := fun _ _ _ => (none, some (.sentinel "fosite.ErrServerError"))

/-- A consent strategy that issues the challenge `c-1` and accepts exactly the
proof `signed-proof`. -/
def sampleConsent : ConsentStrategy where
  IssueChallenge := fun _ _ => ("c-1", none)
  ValidateResponse := fun _ tok =>
    if tok = "signed-proof" then (some sampleSession, none)
    else (none, some (.sentinel "consent: forged token"))

/-- A consent strategy that can neither issue nor validate; every validation
fails with `e`. -/
def brokenConsent (e : GoError) : ConsentStrategy where
  IssueChallenge := fun _ _ => ("", some (.sentinel "consent: no signing key"))
  ValidateResponse := fun _ _ => (none, some e)

/-- The handler over the sample engine and the sample consent strategy. -/
def sampleHandler (a : AuthorizeRequester) : Handler :=
  { OAuth2 := sampleOAuth2 a sampleAccess, Consent := sampleConsent,
    ConsentURL := sampleConsentURL }


/-! ## Facts about the map operations of `url.Values` -/

theorem Values.index_store_same (v : Values) (k : String) (vs : List String) :
    (v.store k vs).index k = vs := by
  simp [Values.index, Values.store]

theorem Values.index_store_other (v : Values) (k k2 : String) (vs : List String)
    (h : k2 ≠ k) : (v.store k vs).index k2 = v.index k2 := by
  obtain ⟨es⟩ := v
  have hk : (k == k2) = false := by
    simpa using fun e : k = k2 => h e.symm
  have hp : (fun a : String × List String =>
      decide ((!(a.1 == k)) = true ∧ (a.1 == k2) = true)) = fun e => e.1 == k2 := by
    funext e
    by_cases he : e.1 = k2
    · simp [he, h]
    · simp [he]
  simp only [Values.index, Values.store, List.find?_cons, hk, List.find?_filter, hp]

theorem Values.Get_Set_same (v : Values) (k x : String) : (v.Set k x).Get k = x := by
  simp [Values.Get, Values.Set, Values.index_store_same]

/-! ## Facts about `Arguments.Exact` -/

theorem strings.Join_two_has_space (a b : String) (rest : List String) :
    ' ' ∈ (strings.Join (a :: b :: rest) " ").data := by
  simp [strings.Join, String.data_append]

theorem Arguments.Exact_client_credentials (r : Arguments) :
    r.Exact "client_credentials" = true ↔ r = ["client_credentials"] := by
  unfold Arguments.Exact
  match r with
  | [] => simp [strings.Join]
  | [a] =>
    simp only [strings.Join, beq_iff_eq, List.cons.injEq, and_true]
    exact eq_comm
  | a :: b :: rest =>
    have hs := strings.Join_two_has_space a b rest
    constructor
    · intro h
      rw [beq_iff_eq] at h
      rw [← h] at hs
      exact absurd hs (by decide)
    · intro h
      simp at h

/-! ## Facts shared by the handler theorems -/

theorem schema_eq_returnURLOf (lib : Library) (r : Request) :
    ((if r.TLS.isNone then "http" else "https") ++ "://" ++ r.Host ++ lib.URLString r.URL) =
      returnURLOf lib r := by
  unfold returnURLOf
  cases r.TLS <;> rfl

theorem redirectToConsent_of_error (lib : Library) (o : Handler) (r : Request)
    (ar : AuthorizeRequester) (tok : String) (e : GoError)
    (h : o.Consent.IssueChallenge ar (returnURLOf lib r) = (tok, some e)) :
    redirectToConsent lib o r ar = ([.IssueChallenge ar (returnURLOf lib r)], some e) := by
  unfold redirectToConsent
  simp only [schema_eq_returnURLOf, h]

theorem redirectToConsent_of_token (lib : Library) (o : Handler) (r : Request)
    (ar : AuthorizeRequester) (tok : String)
    (h : o.Consent.IssueChallenge ar (returnURLOf lib r) = (tok, none)) :
    redirectToConsent lib o r ar =
      ([.IssueChallenge ar (returnURLOf lib r),
        .Redirect r (lib.URLString { o.ConsentURL with
          RawQuery := lib.Encode ((o.ConsentURL.Query lib).Set "challenge" tok) }) 302],
        none) := by
  unfold redirectToConsent
  simp only [schema_eq_returnURLOf, h, http.StatusFound]

theorem writeAuthorizeError_some_returns (lib : Library) (o : Handler)
    (a : AuthorizeRequester) (e : GoError) :
    (writeAuthorizeError lib o (some a) e).outcome = .returned := by
  obtain ⟨_, _, _, v⟩ := a
  cases v <;> rfl

theorem writeAuthorizeError_some_one_write (lib : Library) (o : Handler)
    (a : AuthorizeRequester) (e : GoError) :
    (writesOf (writeAuthorizeError lib o (some a) e).calls).length = 1 := by
  obtain ⟨_, _, _, v⟩ := a
  cases v <;> rfl

theorem writeAuthorizeError_no_grant (lib : Library) (o : Handler)
    (a : Option AuthorizeRequester) (e : GoError) :
    ∀ c ∈ (writeAuthorizeError lib o a e).calls, c.isGrant = false := by
  unfold writeAuthorizeError
  cases a with
  | none => simp
  | some a =>
    obtain ⟨_, _, _, v⟩ := a
    cases v <;> simp [Call.isGrant]

theorem writeAuthorizeError_all_response (lib : Library) (o : Handler)
    (a : Option AuthorizeRequester) (e : GoError) :
    responseOf (writeAuthorizeError lib o a e).calls = (writeAuthorizeError lib o a e).calls := by
  unfold writeAuthorizeError
  cases a with
  | none => rfl
  | some a =>
    obtain ⟨_, _, _, v⟩ := a
    cases v <;> rfl

theorem writeAuthorizeError_no_redirect (lib : Library) (o : Handler)
    (a : Option AuthorizeRequester) (e : GoError) :
    ∀ r u c, Call.Redirect r u c ∉ (writeAuthorizeError lib o a e).calls := by
  unfold writeAuthorizeError
  cases a with
  | none => simp
  | some a =>
    obtain ⟨_, _, _, v⟩ := a
    cases v <;> simp

theorem writeAuthorizeError_consent_irrelevant (lib : Library) (oauth : OAuth2Provider)
    (c1 c2 : ConsentStrategy) (u : URL) (a : Option AuthorizeRequester) (e : GoError) :
    writeAuthorizeError lib ⟨oauth, c1, u⟩ a e = writeAuthorizeError lib ⟨oauth, c2, u⟩ a e := by
  rfl

/-! ## The error translator -/

/-- C1: for every error and every authorize request whose redirect URI is not
valid, `writeAuthorizeError` makes exactly two calls, `w.Header().Add("Location", u)`
and `w.WriteHeader(302)`, where `u` is the string of the configured `ConsentURL`
with its query replaced by the encoding of a query `q`; `q` is the query of
`ConsentURL` with the `Name` of `ErrorToRFC6749Error(err)` appended under `error`,
its `Description` appended under `error_description`, and every other key left as
it was.  The grant engine's `WriteAuthorizeError` is not called. -/
theorem writeAuthorizeError_unvalidated_redirect (lib : Library) (o : Handler)
    (ar : AuthorizeRequester) (err : GoError) (hinvalid : ar.RedirectURIValid = false) :
    ∃ q : Values,
      writeAuthorizeError lib o (some ar) err =
        ⟨[.HeaderAdd "Location" (lib.URLString { o.ConsentURL with RawQuery := lib.Encode q }),
          .WriteHeader 302], .returned⟩ ∧
      q.index "error" =
        (o.ConsentURL.Query lib).index "error" ++ [(lib.ErrorToRFC6749Error err).Name] ∧
      q.index "error_description" =
        (o.ConsentURL.Query lib).index "error_description" ++
          [(lib.ErrorToRFC6749Error err).Description] ∧
      (∀ k, k ≠ "error" → k ≠ "error_description" →
        q.index k = (o.ConsentURL.Query lib).index k) ∧
      ∀ a e, Call.WriteAuthorizeError a e ∉ (writeAuthorizeError lib o (some ar) err).calls := by
  refine ⟨((o.ConsentURL.Query lib).Add "error" (lib.ErrorToRFC6749Error err).Name).Add
    "error_description" (lib.ErrorToRFC6749Error err).Description, ?_, ?_, ?_, ?_, ?_⟩
  · simp [writeAuthorizeError, hinvalid, http.StatusFound]
  · rw [Values.Add, Values.index_store_other _ _ _ _ (by decide), Values.Add,
      Values.index_store_same]
  · rw [Values.Add, Values.index_store_same, Values.Add,
      Values.index_store_other _ _ _ _ (by decide)]
  · intro k h1 h2
    rw [Values.Add, Values.index_store_other _ _ _ _ h2, Values.Add,
      Values.index_store_other _ _ _ _ h1]
  · intro a e
    simp [writeAuthorizeError, hinvalid]

/-- Witness of C1 on the sample request with an unregistered redirect URI. -/
theorem writeAuthorizeError_unvalidated_redirect_witness :
    ∃ q : Values,
      writeAuthorizeError sampleLibrary (sampleHandler sampleAuthorize)
          (some sampleAuthorizeUnregistered) (.sentinel "fosite.ErrInvalidRequest") =
        ⟨[.HeaderAdd "Location" (sampleLibrary.URLString
            { (sampleHandler sampleAuthorize).ConsentURL with
              RawQuery := sampleLibrary.Encode q }),
          .WriteHeader 302], .returned⟩ ∧
      q.index "error" = ["invalid_request"] :=
  (writeAuthorizeError_unvalidated_redirect sampleLibrary (sampleHandler sampleAuthorize)
      sampleAuthorizeUnregistered (.sentinel "fosite.ErrInvalidRequest") rfl).imp
    fun _ h => ⟨h.1, h.2.1.trans (by decide)⟩

/-- C9: for every error and every authorize request whose redirect URI is
valid, `writeAuthorizeError` makes exactly one call, the grant engine's
`WriteAuthorizeError(w, ar, err)` with the same request and the same error; it
adds no header and writes no status code of its own. -/
theorem writeAuthorizeError_validated_delegates (lib : Library) (o : Handler)
    (ar : AuthorizeRequester) (err : GoError) (hvalid : ar.RedirectURIValid = true) :
    writeAuthorizeError lib o (some ar) err = ⟨[.WriteAuthorizeError ar err], .returned⟩ ∧
    (∀ k v, Call.HeaderAdd k v ∉ (writeAuthorizeError lib o (some ar) err).calls) ∧
    (∀ c, Call.WriteHeader c ∉ (writeAuthorizeError lib o (some ar) err).calls) ∧
    ∀ r u c, Call.Redirect r u c ∉ (writeAuthorizeError lib o (some ar) err).calls := by
  simp [writeAuthorizeError, hvalid]

/-- Witness of C9 on the sample request with a registered redirect URI. -/
theorem writeAuthorizeError_validated_delegates_witness :
    writeAuthorizeError sampleLibrary (sampleHandler sampleAuthorize) (some sampleAuthorize)
        (.sentinel "fosite.ErrServerError") =
      ⟨[.WriteAuthorizeError sampleAuthorize (.sentinel "fosite.ErrServerError")], .returned⟩ :=
  (writeAuthorizeError_validated_delegates sampleLibrary (sampleHandler sampleAuthorize)
    sampleAuthorize (.sentinel "fosite.ErrServerError") rfl).1

/-! ## The consent redirect -/

/-- C10: for every request `r`, the first and only call to the consent strategy
made by `redirectToConsent` is `IssueChallenge` with the authorize request it was
given and the return URL `scheme + "://" + r.Host + r.URL.String()`, `scheme`
being `https` exactly when `r.TLS` is not nil and `http` otherwise; when
`IssueChallenge` answers with an error, that error is the result and the log
holds no redirect (no call besides `IssueChallenge`). -/
theorem redirectToConsent_issueChallenge (lib : Library) (o : Handler) (r : Request)
    (ar : AuthorizeRequester) :
    (redirectToConsent lib o r ar).1.head? = some (.IssueChallenge ar (returnURLOf lib r)) ∧
    (∀ a u, Call.IssueChallenge a u ∈ (redirectToConsent lib o r ar).1 →
      a = ar ∧ u = returnURLOf lib r) ∧
    (∀ a t, Call.ValidateResponse a t ∉ (redirectToConsent lib o r ar).1) ∧
    ∀ tok err, o.Consent.IssueChallenge ar (returnURLOf lib r) = (tok, some err) →
      redirectToConsent lib o r ar = ([.IssueChallenge ar (returnURLOf lib r)], some err) := by
  have hurl : ((if r.TLS.isNone then "http" else "https") ++ "://" ++ r.Host ++
      lib.URLString r.URL) = returnURLOf lib r := by
    unfold returnURLOf
    cases r.TLS <;> rfl
  unfold redirectToConsent
  simp only [hurl]
  rcases hic : o.Consent.IssueChallenge ar (returnURLOf lib r) with ⟨tok, _ | e⟩
  · simp
  · simp

/-- Witness of C10: the broken consent strategy fails to issue, and the error
comes back with nothing redirected. -/
theorem redirectToConsent_issueChallenge_witness :
    redirectToConsent sampleLibrary
        ⟨sampleOAuth2 sampleAuthorize sampleAccess, brokenConsent (.sentinel "x"),
          sampleConsentURL⟩ sampleRequest sampleAuthorize =
      ([.IssueChallenge sampleAuthorize (returnURLOf sampleLibrary sampleRequest)],
        some (.sentinel "consent: no signing key")) :=
  (redirectToConsent_issueChallenge sampleLibrary
    ⟨sampleOAuth2 sampleAuthorize sampleAccess, brokenConsent (.sentinel "x"),
      sampleConsentURL⟩ sampleRequest sampleAuthorize).2.2.2 "" _ rfl

/-! ## The authorize endpoint -/

/-- C2: for every authorize request that parses successfully and carries a
non-empty `consent` value, two runs of `AuthHandler` that differ only in the
error (and the discarded session) returned by `Consent.ValidateResponse` produce
the same response and end the same way: what reaches the response writer is in
both runs what the error translator writes for the fixed error
`errors.New(fosite.ErrAccessDenied)`, and neither run calls
`NewAuthorizeResponse` or `WriteAuthorizeResponse`. -/
theorem AuthHandler_consent_failure_uniform (lib : Library) (oauth : OAuth2Provider)
    (c1 c2 : ConsentStrategy) (u : URL) (r : Request) (ar : AuthorizeRequester)
    (s1 s2 : Option Session) (e1 e2 : GoError)
    (hparse : oauth.NewAuthorizeRequest r = (some ar, none))
    (hconsent : ar.RequestForm.Get "consent" ≠ "")
    (h1 : c1.ValidateResponse ar (ar.RequestForm.Get "consent") = (s1, some e1))
    (h2 : c2.ValidateResponse ar (ar.RequestForm.Get "consent") = (s2, some e2)) :
    responseOf (AuthHandler lib ⟨oauth, c1, u⟩ r).calls =
      responseOf (AuthHandler lib ⟨oauth, c2, u⟩ r).calls ∧
    (AuthHandler lib ⟨oauth, c1, u⟩ r).outcome = (AuthHandler lib ⟨oauth, c2, u⟩ r).outcome ∧
    responseOf (AuthHandler lib ⟨oauth, c1, u⟩ r).calls =
      (writeAuthorizeError lib ⟨oauth, c1, u⟩ (some ar)
        (errors.New fosite.ErrAccessDenied)).calls ∧
    (∀ c ∈ (AuthHandler lib ⟨oauth, c1, u⟩ r).calls, c.isGrant = false) ∧
    ∀ c ∈ (AuthHandler lib ⟨oauth, c2, u⟩ r).calls, c.isGrant = false := by
  have key : ∀ (cs : ConsentStrategy) (s : Option Session) (e : GoError),
      cs.ValidateResponse ar (ar.RequestForm.Get "consent") = (s, some e) →
      AuthHandler lib ⟨oauth, cs, u⟩ r =
        ⟨[.NewAuthorizeRequest r, .ValidateResponse ar (ar.RequestForm.Get "consent"),
          .LogError e] ++
          (writeAuthorizeError lib ⟨oauth, cs, u⟩ (some ar)
            (errors.New fosite.ErrAccessDenied)).calls,
         (writeAuthorizeError lib ⟨oauth, cs, u⟩ (some ar)
            (errors.New fosite.ErrAccessDenied)).outcome⟩ := by
    intro cs s e h
    simp only [AuthHandler, hparse, hconsent, h, if_false]
  have resp : ∀ (cs : ConsentStrategy) (e : GoError),
      responseOf ([Call.NewAuthorizeRequest r,
          .ValidateResponse ar (ar.RequestForm.Get "consent"), .LogError e] ++
          (writeAuthorizeError lib ⟨oauth, cs, u⟩ (some ar)
            (errors.New fosite.ErrAccessDenied)).calls) =
        (writeAuthorizeError lib ⟨oauth, cs, u⟩ (some ar)
            (errors.New fosite.ErrAccessDenied)).calls := by
    intro cs e
    have := writeAuthorizeError_all_response lib ⟨oauth, cs, u⟩ (some ar)
      (errors.New fosite.ErrAccessDenied)
    simp only [responseOf] at this ⊢
    simp [List.filter_append, List.filter_cons, Call.isResponse, Call.isWrite, this]
  have grant : ∀ (cs : ConsentStrategy) (e : GoError),
      ∀ c ∈ [Call.NewAuthorizeRequest r,
          .ValidateResponse ar (ar.RequestForm.Get "consent"), .LogError e] ++
          (writeAuthorizeError lib ⟨oauth, cs, u⟩ (some ar)
            (errors.New fosite.ErrAccessDenied)).calls, c.isGrant = false := by
    intro cs e c hc
    rcases List.mem_append.1 hc with hc | hc
    · simp at hc
      rcases hc with rfl | rfl | rfl <;> rfl
    · exact writeAuthorizeError_no_grant _ _ _ _ c hc
  rw [key c1 s1 e1 h1, key c2 s2 e2 h2]
  refine ⟨?_, ?_, ?_, grant c1 e1, grant c2 e2⟩
  · rw [resp, resp, writeAuthorizeError_consent_irrelevant lib oauth c1 c2]
  · rw [writeAuthorizeError_consent_irrelevant lib oauth c1 c2]
  · rw [resp]

/-- Witness of C2: a consented request, once against a strategy failing with
an expiry error and once against one failing with a forgery error. -/
theorem AuthHandler_consent_failure_uniform_witness :
    responseOf (AuthHandler sampleLibrary
        ⟨sampleOAuth2 sampleAuthorizeConsented sampleAccess,
          brokenConsent (.sentinel "consent: token expired"), sampleConsentURL⟩
        sampleRequest).calls =
      responseOf (AuthHandler sampleLibrary
        ⟨sampleOAuth2 sampleAuthorizeConsented sampleAccess,
          brokenConsent (.sentinel "consent: forged token"), sampleConsentURL⟩
        sampleRequest).calls :=
  (AuthHandler_consent_failure_uniform sampleLibrary
    (sampleOAuth2 sampleAuthorizeConsented sampleAccess)
    (brokenConsent (.sentinel "consent: token expired"))
    (brokenConsent (.sentinel "consent: forged token")) sampleConsentURL sampleRequest
    sampleAuthorizeConsented none none _ _ rfl (by decide) rfl rfl).1

/-- C3, as stated, fails: the request parses, carries no `consent` value, and
the consent strategy cannot issue a challenge; the only response write is the
grant engine's `WriteAuthorizeError`, not a redirect to the consent authority. -/
theorem AuthHandler_no_consent_issue_failure :
    (sampleOAuth2 sampleAuthorize sampleAccess).NewAuthorizeRequest sampleRequest =
      (some sampleAuthorize, none) ∧
    sampleAuthorize.RequestForm.Get "consent" = "" ∧
    AuthHandler sampleLibrary
        ⟨sampleOAuth2 sampleAuthorize sampleAccess, brokenConsent (.sentinel "x"),
          sampleConsentURL⟩ sampleRequest =
      ⟨[.NewAuthorizeRequest sampleRequest,
        .IssueChallenge sampleAuthorize "http://hydra.example/oauth2/auth?client_id=app1",
        .LogError (.sentinel "consent: no signing key"),
        .WriteAuthorizeError sampleAuthorize (.sentinel "consent: no signing key")],
       .returned⟩ := by
  decide

/-- C3, amended: for every authorize request that parses successfully and
carries no `consent` value, `AuthHandler` never calls `NewAuthorizeResponse` or
`WriteAuthorizeResponse`; and when `Consent.IssueChallenge` returns a token
without error, the run is the parse, the `IssueChallenge` call and one
`http.Redirect` with status 302 to the string of `ConsentURL` whose query is the
encoding of a query `q` in which `challenge` holds exactly that token and every
other key is as in `ConsentURL`; and when `Consent.IssueChallenge` returns an
error, the run is the parse, the `IssueChallenge` call, the log of that error and
then the error translator on the same request and that error, so what reaches the
response writer is exactly what the error translator writes. -/
theorem AuthHandler_no_consent_redirects (lib : Library) (o : Handler) (r : Request)
    (ar : AuthorizeRequester)
    (hparse : o.OAuth2.NewAuthorizeRequest r = (some ar, none))
    (hnone : ar.RequestForm.Get "consent" = "") :
    (∀ c ∈ (AuthHandler lib o r).calls, c.isGrant = false) ∧
    (∀ tok, o.Consent.IssueChallenge ar (returnURLOf lib r) = (tok, none) →
      ∃ q : Values,
        AuthHandler lib o r =
          ⟨[.NewAuthorizeRequest r, .IssueChallenge ar (returnURLOf lib r),
            .Redirect r (lib.URLString { o.ConsentURL with RawQuery := lib.Encode q }) 302],
           .returned⟩ ∧
        q.Get "challenge" = tok ∧ q.index "challenge" = [tok] ∧
        ∀ k, k ≠ "challenge" → q.index k = (o.ConsentURL.Query lib).index k) ∧
    ∀ tok e, o.Consent.IssueChallenge ar (returnURLOf lib r) = (tok, some e) →
      AuthHandler lib o r =
        ⟨[.NewAuthorizeRequest r, .IssueChallenge ar (returnURLOf lib r), .LogError e] ++
            (writeAuthorizeError lib o (some ar) e).calls,
          (writeAuthorizeError lib o (some ar) e).outcome⟩ ∧
      responseOf (AuthHandler lib o r).calls = (writeAuthorizeError lib o (some ar) e).calls ∧
      ∀ r2 u c, Call.Redirect r2 u c ∉ (AuthHandler lib o r).calls := by
  refine ⟨?_, ?_, ?_⟩
  · rcases hic : o.Consent.IssueChallenge ar (returnURLOf lib r) with ⟨tok, _ | e⟩
    · simp only [AuthHandler, hparse, hnone, if_true,
        redirectToConsent_of_token lib o r ar tok hic]
      intro c hc
      simp at hc
      rcases hc with rfl | rfl | rfl <;> rfl
    · simp only [AuthHandler, hparse, hnone, if_true,
        redirectToConsent_of_error lib o r ar tok e hic]
      intro c hc
      simp only [List.mem_append, List.mem_singleton, List.mem_cons, List.not_mem_nil,
        or_false] at hc
      rcases hc with ((rfl | rfl) | rfl) | hc
      · rfl
      · rfl
      · rfl
      · exact writeAuthorizeError_no_grant _ _ _ _ c hc
  · intro tok hic
    refine ⟨(o.ConsentURL.Query lib).Set "challenge" tok, ?_, Values.Get_Set_same _ _ _,
      Values.index_store_same _ _ _, fun k hk => Values.index_store_other _ _ _ _ hk⟩
    simp only [AuthHandler, hparse, hnone, if_true,
      redirectToConsent_of_token lib o r ar tok hic]
    rfl
  · intro tok e hic
    have hrun : AuthHandler lib o r =
        ⟨[.NewAuthorizeRequest r, .IssueChallenge ar (returnURLOf lib r), .LogError e] ++
            (writeAuthorizeError lib o (some ar) e).calls,
          (writeAuthorizeError lib o (some ar) e).outcome⟩ := by
      simp only [AuthHandler, hparse, hnone, if_true,
        redirectToConsent_of_error lib o r ar tok e hic]
      rfl
    have hresp := writeAuthorizeError_all_response lib o (some ar) e
    refine ⟨hrun, ?_, ?_⟩
    · rw [hrun]
      simp only [responseOf] at hresp ⊢
      simp [List.filter_append, List.filter_cons, Call.isResponse, Call.isWrite, hresp]
    · intro r2 u c hmem
      rw [hrun] at hmem
      rcases List.mem_append.1 hmem with h | h
      · simp at h
      · exact absurd h (writeAuthorizeError_no_redirect lib o (some ar) e r2 u c)

/-- Witness of C3 (amended): the sample request is redirected to the consent
authority with the challenge `c-1`; and with a consent strategy that cannot
issue, a request whose redirect URI is not registered gets the error
translator's own 302 to the consent authority. -/
theorem AuthHandler_no_consent_redirects_witness :
    (∃ q : Values,
      AuthHandler sampleLibrary (sampleHandler sampleAuthorize) sampleRequest =
        ⟨[.NewAuthorizeRequest sampleRequest,
          .IssueChallenge sampleAuthorize (returnURLOf sampleLibrary sampleRequest),
          .Redirect sampleRequest (sampleLibrary.URLString
            { (sampleHandler sampleAuthorize).ConsentURL with
              RawQuery := sampleLibrary.Encode q }) 302],
         .returned⟩ ∧
      q.Get "challenge" = "c-1") ∧
    responseOf (AuthHandler sampleLibrary
        ⟨sampleOAuth2 sampleAuthorizeUnregistered sampleAccess, brokenConsent (.sentinel "x"),
          sampleConsentURL⟩ sampleRequest).calls =
      [.HeaderAdd "Location"
        ("https://consent.example/consent?error=server_error&error_description=" ++
          "The authorization server encountered an unexpected condition"),
       .WriteHeader 302] :=
  ⟨((AuthHandler_no_consent_redirects sampleLibrary (sampleHandler sampleAuthorize)
      sampleRequest sampleAuthorize rfl (by decide)).2.1 "c-1" rfl).imp
    fun _ h => ⟨h.1, h.2.1⟩,
   ((AuthHandler_no_consent_redirects sampleLibrary
      ⟨sampleOAuth2 sampleAuthorizeUnregistered sampleAccess, brokenConsent (.sentinel "x"),
        sampleConsentURL⟩ sampleRequest sampleAuthorizeUnregistered rfl (by decide)).2.2
      "" (.sentinel "consent: no signing key") rfl).2.1.trans (by decide)⟩

/-- C6: for every authorize request that parses successfully, carries a
non-empty `consent` value, and for which `Consent.ValidateResponse` returns a
session `s` without error, `AuthHandler` calls `NewAuthorizeResponse` with that
request and that session (and with no other arguments); when that call succeeds
with `resp`, the run is exactly parse, validation, `NewAuthorizeResponse` and
`WriteAuthorizeResponse(w, request, resp)`, which is its only write and the only
thing that reaches the response writer. -/
theorem AuthHandler_valid_consent_grants (lib : Library) (o : Handler) (r : Request)
    (ar : AuthorizeRequester) (s : Option Session)
    (hparse : o.OAuth2.NewAuthorizeRequest r = (some ar, none))
    (hconsent : ar.RequestForm.Get "consent" ≠ "")
    (hvalid : o.Consent.ValidateResponse ar (ar.RequestForm.Get "consent") = (s, none)) :
    Call.NewAuthorizeResponse r ar s ∈ (AuthHandler lib o r).calls ∧
    (∀ r2 a2 s2, Call.NewAuthorizeResponse r2 a2 s2 ∈ (AuthHandler lib o r).calls →
      r2 = r ∧ a2 = ar ∧ s2 = s) ∧
    ∀ resp, o.OAuth2.NewAuthorizeResponse r ar s = (resp, none) →
      AuthHandler lib o r =
        ⟨[.NewAuthorizeRequest r, .ValidateResponse ar (ar.RequestForm.Get "consent"),
          .NewAuthorizeResponse r ar s, .WriteAuthorizeResponse ar resp], .returned⟩ ∧
      responseOf (AuthHandler lib o r).calls = [.WriteAuthorizeResponse ar resp] := by
  rcases hresp : o.OAuth2.NewAuthorizeResponse r ar s with ⟨resp, _ | e⟩
  · have hrun : AuthHandler lib o r =
        ⟨[.NewAuthorizeRequest r, .ValidateResponse ar (ar.RequestForm.Get "consent"),
          .NewAuthorizeResponse r ar s, .WriteAuthorizeResponse ar resp], .returned⟩ := by
      simp only [AuthHandler, hparse, hconsent, hvalid, hresp, if_false]
    rw [hrun]
    refine ⟨by simp, ?_, ?_⟩
    · intro r2 a2 s2 h
      simpa using h
    · intro resp2 h2
      cases h2
      exact ⟨rfl, rfl⟩
  · have hrun : AuthHandler lib o r =
        ⟨[.NewAuthorizeRequest r, .ValidateResponse ar (ar.RequestForm.Get "consent"),
          .NewAuthorizeResponse r ar s, .LogError e] ++
            (writeAuthorizeError lib o (some ar) e).calls,
         (writeAuthorizeError lib o (some ar) e).outcome⟩ := by
      simp only [AuthHandler, hparse, hconsent, hvalid, hresp, if_false]
    rw [hrun]
    refine ⟨by simp, ?_, ?_⟩
    · intro r2 a2 s2 h
      rcases List.mem_append.1 h with h | h
      · simpa using h
      · exact absurd (writeAuthorizeError_no_grant _ _ _ _ _ h) (by simp [Call.isGrant])
    · intro resp2 h2
      cases h2

/-- Witness of C6: the consented sample request is granted the code `code-1`. -/
theorem AuthHandler_valid_consent_grants_witness :
    AuthHandler sampleLibrary (sampleHandler sampleAuthorizeConsented) sampleRequest =
        ⟨[.NewAuthorizeRequest sampleRequest,
          .ValidateResponse sampleAuthorizeConsented
            (sampleAuthorizeConsented.RequestForm.Get "consent"),
          .NewAuthorizeResponse sampleRequest sampleAuthorizeConsented (some sampleSession),
          .WriteAuthorizeResponse sampleAuthorizeConsented (some ⟨"code-1"⟩)], .returned⟩ ∧
    responseOf (AuthHandler sampleLibrary (sampleHandler sampleAuthorizeConsented)
        sampleRequest).calls =
      [.WriteAuthorizeResponse sampleAuthorizeConsented (some ⟨"code-1"⟩)] :=
  (AuthHandler_valid_consent_grants sampleLibrary (sampleHandler sampleAuthorizeConsented)
    sampleRequest sampleAuthorizeConsented (some sampleSession) rfl (by decide)
    (by decide)).2.2 (some ⟨"code-1"⟩) rfl

/-! ## The token endpoint -/

/-- C4: for every access request that parses successfully, `TokenHandler` calls
`NewAccessResponse` right after the parse, once, and the session at that call is
the session as `NewAccessRequest` left it with `Subject` set to
`accessRequest.GetClient().GetID()` when the grant types are the single element
`client_credentials`, and is the session exactly as `NewAccessRequest` left it
for every other grant-type list. -/
theorem TokenHandler_subject_binding (o : Handler) (r : Request) (ar : AccessRequester)
    (s1 : Session)
    (hparse : o.OAuth2.NewAccessRequest r Session.fresh = (some ar, none, s1)) :
    ∃ s2 : Session,
      (TokenHandler o r).calls.take 2 =
        [.NewAccessRequest r Session.fresh, .NewAccessResponse r ar s2] ∧
      (∀ r3 a3 s3, Call.NewAccessResponse r3 a3 s3 ∈ (TokenHandler o r).calls →
        r3 = r ∧ a3 = ar ∧ s3 = s2) ∧
      (ar.GrantTypes = ["client_credentials"] → s2 = { s1 with Subject := ar.Client.ID }) ∧
      (ar.GrantTypes ≠ ["client_credentials"] → s2 = s1) := by
  refine ⟨if ar.GrantTypes.Exact "client_credentials" then
      { s1 with Subject := ar.Client.ID } else s1, ?_, ?_, ?_, ?_⟩
  · simp only [TokenHandler, hparse]
    split <;> rfl
  · simp only [TokenHandler, hparse]
    split <;> simp
  · intro h
    rw [if_pos ((Arguments.Exact_client_credentials _).2 h)]
  · intro h
    rw [if_neg (fun hx => h ((Arguments.Exact_client_credentials _).1 hx))]

/-- Witness of C4: the sample client-credentials request of client `app1`. -/
theorem TokenHandler_subject_binding_witness :
    ∃ s2 : Session,
      (TokenHandler (sampleHandler sampleAuthorize) sampleRequest).calls.take 2 =
        [.NewAccessRequest sampleRequest Session.fresh,
          .NewAccessResponse sampleRequest sampleAccess s2] ∧
      s2 = { Session.fresh with Subject := "app1" } :=
  (TokenHandler_subject_binding (sampleHandler sampleAuthorize) sampleRequest sampleAccess
      Session.fresh rfl).imp
    fun _ h => ⟨h.1, h.2.2.1 rfl⟩

/-- C8: every call `TokenHandler` makes is one of `NewAccessRequest`,
`NewAccessResponse`, `WriteAccessError`, `WriteAccessResponse` and the logger, so
it never redirects, never adds a header, never writes a status code of its own
and never reaches the grant engine's `WriteAuthorizeError`.  When
`NewAccessRequest` returns an error `err` with request `accessRequest`, the run is
parse, log and `WriteAccessError(w, accessRequest, err)`, so `NewAccessResponse`
and `WriteAccessResponse` are not called; when the `NewAccessResponse` call the
handler makes returns an error `err`, the only write is
`WriteAccessError(w, accessRequest, err)`. -/
theorem TokenHandler_errors_direct (o : Handler) (r : Request) :
    (∀ c ∈ (TokenHandler o r).calls, c.isTokenSide = true) ∧
    (∀ r2 u code, Call.Redirect r2 u code ∉ (TokenHandler o r).calls) ∧
    (∀ k v, Call.HeaderAdd k v ∉ (TokenHandler o r).calls) ∧
    (∀ code, Call.WriteHeader code ∉ (TokenHandler o r).calls) ∧
    (∀ a e, Call.WriteAuthorizeError a e ∉ (TokenHandler o r).calls) ∧
    (∀ ar err s, o.OAuth2.NewAccessRequest r Session.fresh = (ar, some err, s) →
      TokenHandler o r =
        ⟨[.NewAccessRequest r Session.fresh, .LogError err, .WriteAccessError ar err],
          .returned⟩ ∧
      writesOf (TokenHandler o r).calls = [.WriteAccessError ar err]) ∧
    ∀ ar s resp err, Call.NewAccessResponse r ar s ∈ (TokenHandler o r).calls →
      o.OAuth2.NewAccessResponse r ar s = (resp, some err) →
      writesOf (TokenHandler o r).calls = [.WriteAccessError (some ar) err] := by
  have side : ∀ c ∈ (TokenHandler o r).calls, c.isTokenSide = true := by
    rcases hreq : o.OAuth2.NewAccessRequest r Session.fresh with ⟨_ | a, _ | e, s1⟩
    · simp [TokenHandler, hreq, Call.isTokenSide]
    · simp [TokenHandler, hreq, Call.isTokenSide]
    · rcases hr2 : o.OAuth2.NewAccessResponse r a
          (if a.GrantTypes.Exact "client_credentials" then
            { s1 with Subject := a.Client.ID } else s1) with ⟨resp2, _ | e2⟩
      · simp [TokenHandler, hreq, hr2, Call.isTokenSide]
      · simp [TokenHandler, hreq, hr2, Call.isTokenSide]
    · simp [TokenHandler, hreq, Call.isTokenSide]
  refine ⟨side, ?_, ?_, ?_, ?_, ?_, ?_⟩
  · intro r2 u code h
    simpa [Call.isTokenSide] using side _ h
  · intro k v h
    simpa [Call.isTokenSide] using side _ h
  · intro code h
    simpa [Call.isTokenSide] using side _ h
  · intro a e h
    simpa [Call.isTokenSide] using side _ h
  · intro ar err s h
    constructor <;> simp [TokenHandler, h, writesOf, Call.isWrite]
  · intro ar s resp err hmem hresp
    rcases hreq : o.OAuth2.NewAccessRequest r Session.fresh with ⟨_ | a, _ | e, s1⟩
    · simp [TokenHandler, hreq] at hmem
    · simp [TokenHandler, hreq] at hmem
    · rcases hr2 : o.OAuth2.NewAccessResponse r a
          (if a.GrantTypes.Exact "client_credentials" then
            { s1 with Subject := a.Client.ID } else s1) with ⟨resp2, _ | e2⟩
      · simp only [TokenHandler, hreq, hr2] at hmem
        simp at hmem
        obtain ⟨rfl, rfl⟩ := hmem
        rw [hr2] at hresp
        cases hresp
      · simp only [TokenHandler, hreq, hr2] at hmem ⊢
        simp at hmem
        obtain ⟨rfl, rfl⟩ := hmem
        rw [hr2] at hresp
        cases hresp
        rfl
    · simp [TokenHandler, hreq] at hmem

/-- Witness of C8: the failing grant engine rejects the token request, and
the handler answers through `WriteAccessError` with that error. -/
theorem TokenHandler_errors_direct_witness :
    TokenHandler ⟨failingOAuth2, sampleConsent, sampleConsentURL⟩ sampleRequest =
        ⟨[.NewAccessRequest sampleRequest Session.fresh,
          .LogError (.sentinel "fosite.ErrInvalidRequest"),
          .WriteAccessError none (.sentinel "fosite.ErrInvalidRequest")], .returned⟩ ∧
    writesOf (TokenHandler ⟨failingOAuth2, sampleConsent, sampleConsentURL⟩
        sampleRequest).calls =
      [.WriteAccessError none (.sentinel "fosite.ErrInvalidRequest")] :=
  (TokenHandler_errors_direct ⟨failingOAuth2, sampleConsent, sampleConsentURL⟩
    sampleRequest).2.2.2.2.2.1 none _ Session.fresh rfl

/-! ## One response per invocation -/

/-- C5, as stated, fails: the grant engine rejects the authorize request and
hands back a nil request; `AuthHandler` logs the error and stops in the
nil dereference of `ar.IsRedirectURIValid()`, having written no response. -/
theorem AuthHandler_nil_request_writes_nothing :
    AuthHandler sampleLibrary ⟨failingOAuth2, sampleConsent, sampleConsentURL⟩ sampleRequest =
      ⟨[.NewAuthorizeRequest sampleRequest, .LogError (.sentinel "fosite.ErrInvalidRequest")],
        .panicked⟩ ∧
    (writesOf (AuthHandler sampleLibrary ⟨failingOAuth2, sampleConsent, sampleConsentURL⟩
      sampleRequest).calls).length = 0 := by
  decide

/-- C5, amended: no invocation of `AuthHandler` or `TokenHandler` performs two
response writes, and every invocation in which the grant engine's parser hands
back a non-nil request (for `TokenHandler`: a non-nil request or an error)
returns and performs exactly one response write, one of `WriteAccessError`,
`WriteAccessResponse`, `WriteAuthorizeError`, `WriteAuthorizeResponse`,
`http.Redirect` and the error translator's own `WriteHeader(302)`. -/
theorem handlers_write_exactly_once (lib : Library) (o : Handler) (r : Request) :
    (writesOf (AuthHandler lib o r).calls).length ≤ 1 ∧
    (writesOf (TokenHandler o r).calls).length ≤ 1 ∧
    ((o.OAuth2.NewAuthorizeRequest r).1.isSome = true →
      (AuthHandler lib o r).outcome = .returned ∧
      (writesOf (AuthHandler lib o r).calls).length = 1) ∧
    (((o.OAuth2.NewAccessRequest r Session.fresh).1.isSome = true ∨
        (o.OAuth2.NewAccessRequest r Session.fresh).2.1.isSome = true) →
      (TokenHandler o r).outcome = .returned ∧
      (writesOf (TokenHandler o r).calls).length = 1) := by
  have app : ∀ (pre : List Call) (a : AuthorizeRequester) (e : GoError),
      (writesOf (pre ++ (writeAuthorizeError lib o (some a) e).calls)).length =
        (writesOf pre).length + 1 := by
    intro pre a e
    have := writeAuthorizeError_some_one_write lib o a e
    simp only [writesOf] at this ⊢
    rw [List.filter_append, List.length_append, this]
  have auth : (o.OAuth2.NewAuthorizeRequest r).1.isSome = true →
      (AuthHandler lib o r).outcome = .returned ∧
      (writesOf (AuthHandler lib o r).calls).length = 1 := by
    rcases hreq : o.OAuth2.NewAuthorizeRequest r with ⟨_ | ar, _ | e⟩
    · simp
    · simp
    · intro _
      by_cases hc : ar.RequestForm.Get "consent" = ""
      · rcases hic : o.Consent.IssueChallenge ar (returnURLOf lib r) with ⟨tok, _ | e⟩
        · simp only [AuthHandler, hreq, hc, if_true,
            redirectToConsent_of_token lib o r ar tok hic]
          exact ⟨trivial, rfl⟩
        · simp only [AuthHandler, hreq, hc, if_true,
            redirectToConsent_of_error lib o r ar tok e hic]
          exact ⟨writeAuthorizeError_some_returns _ _ _ _, by rw [app]; rfl⟩
      · rcases hv : o.Consent.ValidateResponse ar (ar.RequestForm.Get "consent")
          with ⟨s, _ | e⟩
        · rcases hresp : o.OAuth2.NewAuthorizeResponse r ar s with ⟨resp, _ | e⟩
          · simp only [AuthHandler, hreq, hc, hv, hresp, if_false]
            exact ⟨trivial, rfl⟩
          · simp only [AuthHandler, hreq, hc, hv, hresp, if_false]
            exact ⟨writeAuthorizeError_some_returns _ _ _ _, by rw [app]; rfl⟩
        · simp only [AuthHandler, hreq, hc, hv, if_false]
          exact ⟨writeAuthorizeError_some_returns _ _ _ _, by rw [app]; rfl⟩
    · intro _
      simp only [AuthHandler, hreq]
      exact ⟨writeAuthorizeError_some_returns _ _ _ _, by rw [app]; rfl⟩
  have authle : (writesOf (AuthHandler lib o r).calls).length ≤ 1 := by
    rcases hreq : o.OAuth2.NewAuthorizeRequest r with ⟨_ | ar, _ | e⟩
    · simp [AuthHandler, hreq, writesOf, Call.isWrite]
    · simp [AuthHandler, hreq, writesOf, Call.isWrite, writeAuthorizeError]
    · exact le_of_eq (auth (by rw [hreq]; rfl)).2
    · exact le_of_eq (auth (by rw [hreq]; rfl)).2
  have tok : (writesOf (TokenHandler o r).calls).length ≤ 1 ∧
      (((o.OAuth2.NewAccessRequest r Session.fresh).1.isSome = true ∨
        (o.OAuth2.NewAccessRequest r Session.fresh).2.1.isSome = true) →
      (TokenHandler o r).outcome = .returned ∧
      (writesOf (TokenHandler o r).calls).length = 1) := by
    rcases hreq : o.OAuth2.NewAccessRequest r Session.fresh with ⟨_ | a, _ | e, s1⟩
    · simp [TokenHandler, hreq, writesOf, Call.isWrite]
    · simp [TokenHandler, hreq, writesOf, Call.isWrite]
    · rcases hr2 : o.OAuth2.NewAccessResponse r a
          (if a.GrantTypes.Exact "client_credentials" then
            { s1 with Subject := a.Client.ID } else s1) with ⟨resp2, _ | e2⟩
      · simp [TokenHandler, hreq, hr2, writesOf, Call.isWrite]
      · simp [TokenHandler, hreq, hr2, writesOf, Call.isWrite]
    · simp [TokenHandler, hreq, writesOf, Call.isWrite]
  exact ⟨authle, tok.1, auth, tok.2⟩

/-- Witness of C5 (amended): the consented sample request and the sample token
request each get one response. -/
theorem handlers_write_exactly_once_witness :
    ((AuthHandler sampleLibrary (sampleHandler sampleAuthorizeConsented)
        sampleRequest).outcome = .returned ∧
      (writesOf (AuthHandler sampleLibrary (sampleHandler sampleAuthorizeConsented)
        sampleRequest).calls).length = 1) ∧
    ((TokenHandler (sampleHandler sampleAuthorizeConsented) sampleRequest).outcome =
        .returned ∧
      (writesOf (TokenHandler (sampleHandler sampleAuthorizeConsented)
        sampleRequest).calls).length = 1) :=
  ⟨(handlers_write_exactly_once sampleLibrary (sampleHandler sampleAuthorizeConsented)
      sampleRequest).2.2.1 rfl,
   (handlers_write_exactly_once sampleLibrary (sampleHandler sampleAuthorizeConsented)
      sampleRequest).2.2.2 (Or.inl rfl)⟩

/-- C7, as stated, fails: handed a nil request, `writeAuthorizeError` stops in
the nil dereference of `ar.IsRedirectURIValid()` and writes nothing. -/
theorem writeAuthorizeError_nil_panics :
    writeAuthorizeError sampleLibrary (sampleHandler sampleAuthorize) none
        (.sentinel "fosite.ErrInvalidRequest") = ⟨[], .panicked⟩ ∧
    (writesOf (writeAuthorizeError sampleLibrary (sampleHandler sampleAuthorize) none
        (.sentinel "fosite.ErrInvalidRequest")).calls).length = 0 := by
  decide

/-- C7, amended: when `NewAuthorizeRequest` fails, `AuthHandler` logs the error
and invokes the error translator with the returned request, nil or not, and the
error; the run continues and ends as the error translator does.  For every error
and every non-nil request the error translator returns and writes exactly one
response. -/
theorem AuthHandler_parse_failure_translated (lib : Library) (o : Handler) (r : Request)
    (ar : Option AuthorizeRequester) (err : GoError)
    (hfail : o.OAuth2.NewAuthorizeRequest r = (ar, some err)) :
    AuthHandler lib o r =
      ⟨[.NewAuthorizeRequest r, .LogError err] ++ (writeAuthorizeError lib o ar err).calls,
        (writeAuthorizeError lib o ar err).outcome⟩ ∧
    ∀ (a : AuthorizeRequester) (e : GoError),
      (writeAuthorizeError lib o (some a) e).outcome = .returned ∧
      (writesOf (writeAuthorizeError lib o (some a) e).calls).length = 1 := by
  constructor
  · simp only [AuthHandler, hfail]
  · intro a e
    exact ⟨writeAuthorizeError_some_returns _ _ _ _, writeAuthorizeError_some_one_write _ _ _ _⟩

/-- Witness of C7 (amended): a grant engine that rejects the request and hands
the parsed request back; its redirect URI is registered, so the translator
delegates. -/
theorem AuthHandler_parse_failure_translated_witness :
    AuthHandler sampleLibrary
        ⟨{ failingOAuth2 with NewAuthorizeRequest := fun _ =>
            (some sampleAuthorize, some (.sentinel "fosite.ErrInvalidRequest")) },
          sampleConsent, sampleConsentURL⟩ sampleRequest =
      ⟨[.NewAuthorizeRequest sampleRequest, .LogError (.sentinel "fosite.ErrInvalidRequest")] ++
        (writeAuthorizeError sampleLibrary
          ⟨{ failingOAuth2 with NewAuthorizeRequest := fun _ =>
              (some sampleAuthorize, some (.sentinel "fosite.ErrInvalidRequest")) },
            sampleConsent, sampleConsentURL⟩ (some sampleAuthorize)
          (.sentinel "fosite.ErrInvalidRequest")).calls,
        (writeAuthorizeError sampleLibrary
          ⟨{ failingOAuth2 with NewAuthorizeRequest := fun _ =>
              (some sampleAuthorize, some (.sentinel "fosite.ErrInvalidRequest")) },
            sampleConsent, sampleConsentURL⟩ (some sampleAuthorize)
          (.sentinel "fosite.ErrInvalidRequest")).outcome⟩ :=
  (AuthHandler_parse_failure_translated sampleLibrary
    ⟨{ failingOAuth2 with NewAuthorizeRequest := fun _ =>
        (some sampleAuthorize, some (.sentinel "fosite.ErrInvalidRequest")) },
      sampleConsent, sampleConsentURL⟩ sampleRequest (some sampleAuthorize)
    (.sentinel "fosite.ErrInvalidRequest") rfl).1

end Hydra
